import Mathlib

/-!
Verification development for the SEACE procurement-listing ingestion pipeline
(`backend-nodejs/src/scraper/SeaceScraper.js` and the ETL service's
`performScraping` / `mapScrapeDataToProcesoSchema`).

The JavaScript string primitives used by the scraper are modelled at the
character-list level (`List Char`), matching JS semantics for the ASCII
inputs the scraper handles: `split` on a single-character separator,
`trim`, `padStart(2, '0')`, `parseInt`, `parseFloat` (finite decimal
values; IEEE infinities are out of scope), `toLowerCase` (ASCII range),
and truthiness of strings (`""` falsy).  Fallible operations return
`Option`; `none` plays the role of JS `null` / `NaN`.
-/

namespace Seace

/-- Whitespace class used by the model for `trim` and numeric-prefix
skipping (the ASCII subset of the JS whitespace class). -/
def jsWs (c : Char) : Bool :=
  decide (c = ' ' ∨ c = '\t' ∨ c = '\n' ∨ c = '\r')

/-- Model of `String.prototype.trim` on character lists: drop leading and trailing
whitespace. -/
def jsTrim (l : List Char) : List Char :=
  ((l.dropWhile jsWs).reverse.dropWhile jsWs).reverse

/-- Model of `String.prototype.split(sep)` for a one-character separator, on
character lists.  Mirrors JS: `"a,,b".split(',') = ["a","","b"]` and
`"".split(',') = [""]`. -/
def splitChar (c : Char) : List Char → List (List Char)
  | [] => [[]]
  | x :: xs =>
    if x = c then [] :: splitChar c xs
    else
      match splitChar c xs with
      | [] => [[x]]
      | h :: t => (x :: h) :: t

/-- Model of `String.prototype.padStart(2, '0')` on character lists. -/
def pad2 (l : List Char) : List Char :=
  if l.length < 2 then List.replicate (2 - l.length) '0' ++ l else l

/-- JS truthiness for an optional string field (`undefined`/`null`/`""`
are falsy). -/
def jsTruthy : Option String → Bool
  | none => false
  | some s => s ≠ ""

/-- JS `x || y` for optional string values under JS truthiness. -/
def jsOrElse (v : Option String) (dflt : String) : String :=
  match v with
  | none => dflt
  | some s => if s = "" then dflt else s

/-- JS `x || null` for optional string values under JS truthiness
(empty string collapses to null). -/
def jsOrNull (v : Option String) : Option String :=
  match v with
  | none => none
  | some s => if s = "" then none else some s

/-- Numeric value of a list of decimal digit characters. -/
def digitsVal (l : List Char) : Nat :=
  l.foldl (fun acc c => acc * 10 + (c.toNat - 48)) 0

/-- Model of `parseInt(s)` (radix 10, plus the `0x` hexadecimal prefix JS honours
by default): skip leading whitespace, optional sign, then the longest
digit prefix; `none` models `NaN`. -/
def jsParseInt (s : String) : Option Int :=
  let l := s.data.dropWhile jsWs
  let sgn : Int := match l with
    | '-' :: _ => -1
    | _ => 1
  let l1 : List Char := match l with
    | '-' :: t => t
    | '+' :: t => t
    | _ => l
  match l1 with
  | '0' :: c :: t =>
    if c = 'x' ∨ c = 'X' then
      let hs := t.takeWhile (fun d => d.isDigit ∨ ('a' ≤ d ∧ d ≤ 'f') ∨ ('A' ≤ d ∧ d ≤ 'F'))
      if hs = [] then none
      else some (sgn * (hs.foldl (fun acc d =>
        acc * 16 + (if d.isDigit then d.toNat - 48
                    else if 'a' ≤ d then d.toNat - 87 else d.toNat - 55)) 0 : Nat))
    else
      let ds := l1.takeWhile Char.isDigit
      if ds = [] then none else some (sgn * (digitsVal ds : Nat))
  | _ =>
    let ds := l1.takeWhile Char.isDigit
    if ds = [] then none else some (sgn * (digitsVal ds : Nat))

/-- Exact value of a parsed decimal literal, kept as an unreduced
fraction `num / den` with `den` a positive power of ten.  This stands in
for the IEEE double produced by `parseFloat`; it is faithful for the
equality, sign and zero tests the code performs on amounts. -/
structure DecVal where
  num : Int
  den : Nat
  deriving DecidableEq, Repr

/-- The rational value denoted by a `DecVal`. -/
def DecVal.toRat (d : DecVal) : ℚ := (d.num : ℚ) / (d.den : ℚ)

/-- Model of `parseFloat(s)` restricted to finite decimal notation: skip leading
whitespace, optional sign, longest `digits [. digits] [e[sign]digits]`
prefix; `none` models `NaN`. -/
def jsParseFloat (s : String) : Option DecVal :=
  let l := s.data.dropWhile jsWs
  let neg : Bool := match l with
    | '-' :: _ => true
    | _ => false
  let l1 : List Char := match l with
    | '-' :: t => t
    | '+' :: t => t
    | _ => l
  let ip := l1.takeWhile Char.isDigit
  let l2 := l1.drop ip.length
  let fp : List Char := match l2 with
    | '.' :: t => t.takeWhile Char.isDigit
    | _ => []
  let l3 : List Char := match l2 with
    | '.' :: t => t.drop fp.length
    | _ => l2
  if ip = [] ∧ fp = [] then none
  else
    let mantNum : Int := (digitsVal ip * 10 ^ fp.length + digitsVal fp : Nat)
    let mantNum : Int := if neg then -mantNum else mantNum
    let expv : Int := match l3 with
      | c :: t =>
        if c = 'e' ∨ c = 'E' then
          let esgn : Int := match t with
            | '-' :: _ => -1
            | _ => 1
          let t1 : List Char := match t with
            | '-' :: u => u
            | '+' :: u => u
            | _ => t
          let eds := t1.takeWhile Char.isDigit
          if eds = [] then 0 else esgn * (digitsVal eds : Nat)
        else 0
      | [] => 0
    if 0 ≤ expv then
      some ⟨mantNum * (10 : Int) ^ expv.toNat, 10 ^ fp.length⟩
    else
      some ⟨mantNum, 10 ^ fp.length * 10 ^ (-expv).toNat⟩

/-- ASCII `toLowerCase`, sufficient for the header labels compared
against (`"Entidad"`, `"Nombre o Sigla de la Entidad"`). -/
def jsToLower (s : String) : String :=
  String.mk (s.data.map Char.toLower)

/-! ## Date normalization (`normalizeProcesoData`, step 1 plus the
step-5 empty-string sweep as it lands on `fecha_publicacion`) -/

/-- Step 1 of `normalizeProcesoData`: split the trimmed value on a space
into date and time parts, split the date part on `/` into day, month and
year, and reassemble as `yyyy-mm-dd HH:MM[:SS]` when all three date
components are (JS-)truthy; otherwise leave the value unchanged. -/
def normFechaCore (l : List Char) : List Char :=
  let parts := splitChar ' ' (jsTrim l)
  let fecha := parts.headD []
  let hora := if (parts.getD 1 []) = [] then "00:00:00".data else parts.getD 1 []
  let fp := splitChar '/' fecha
  let dia := fp.getD 0 []
  let mes := fp.getD 1 []
  let anio := fp.getD 2 []
  if dia ≠ [] ∧ mes ≠ [] ∧ anio ≠ [] then
    anio ++ '-' :: pad2 mes ++ '-' :: pad2 dia ++ ' ' :: hora
  else l

/-- Full effect of `normalizeProcesoData` on the publication date: a
falsy input becomes null, a truthy input is transformed by step 1, and
the step-5 sweep nullifies a result that is empty after trimming. -/
def normFechaList (l : List Char) : Option (List Char) :=
  if l = [] then none
  else
    let r := normFechaCore l
    if jsTrim r = [] then none else some r

/-- String-level wrapper for `normFechaList`. -/
def normFecha (v : Option String) : Option String :=
  match v with
  | none => none
  | some s => (normFechaList s.data).map String.mk

/-! ## Amount normalization (`normalizeProcesoData`, step 2) -/

/-- Step 2 of `normalizeProcesoData`: the sentinel values `"---"`,
`"N/A"` and falsy input become null; otherwise every `.` (thousands
separator) is removed, every `,` becomes `.`, the result is trimmed and
fed to `parseFloat`, with `NaN` becoming null. -/
def normMonto (v : Option String) : Option DecVal :=
  match v with
  | none => none
  | some s =>
    if s = "" ∨ s = "---" ∨ s = "N/A" then none
    else
      jsParseFloat (String.mk (jsTrim
        (((s.data.filter (fun c => c ≠ '.')).map
          (fun c => if c = ',' then '.' else c)))))

example : normFecha (some "09/10/2025 14:30") = some "2025-10-09 14:30" := by decide
example : normFecha (some "") = none := by decide
example : normFecha (some "abc") = some "abc" := by decide
example : normFecha (some "9/10/2025") = some "2025-10-09 00:00:00" := by decide
example : normMonto (some "1.234.567,89") = some ⟨123456789, 100⟩ := by decide
example : (normMonto (some "1.234.567,89")).map DecVal.toRat = some (1234567.89 : ℚ) := by
  have h : normMonto (some "1.234.567,89") = some ⟨123456789, 100⟩ := by decide
  rw [h]; simp [DecVal.toRat]; norm_num
example : normMonto (some "---") = none := by decide
example : normMonto (some "abc") = none := by decide
example : normMonto (some "-500,00") = some ⟨-50000, 100⟩ := by decide

/-! ## Table extraction (`extractTableData`)

A raw table row is the list of its cells' cleaned texts
(`getCleanText` output: `none` for a missing/empty cell).  Accessing a
cell beyond the row's length models the JS `cells[i]` being
`undefined`. -/

/-- One scraped table row: the cleaned text of each `td` cell. -/
def RawRow := List (Option String)

/-- Model of `getCleanText(cells[i])`: `undefined` cells and absent text both
give `null`. -/
def getCell (cells : RawRow) (i : Nat) : Option String :=
  (List.getD cells i none)

/-- The scraper's `isNumber` helper applied to a cell value:
`value && !isNaN(parseInt(value))`. -/
def isNumberJS (v : Option String) : Bool :=
  match v with
  | none => false
  | some s => s ≠ "" && (jsParseInt s).isSome

/-- Entity-column validation: present (truthy) and not one of the two
header labels (compared lower-cased). -/
def isNotHeaderJS (v : Option String) : Bool :=
  match v with
  | none => false
  | some s =>
    s ≠ "" && jsToLower s ≠ "nombre o sigla de la entidad" && jsToLower s ≠ "entidad"

/-- Description-column validation: present (truthy) and at least 10
characters long. -/
def hasDescLength (v : Option String) : Bool :=
  match v with
  | none => false
  | some s => s ≠ "" && decide (10 ≤ s.length)

/-- Ambient impure inputs of one extraction pass: `Date.now()`, the
`Math.random()` suffix, the current page URL and
`new Date().toISOString()`. -/
structure ScrapeEnv where
  nowMs : String
  rand : String
  pageUrl : String
  nowIso : String

/-- Generated fallback identifier
`PROC-${Date.now()}-${index}-${randomSuffix}`. -/
def genId (env : ScrapeEnv) (idx : Nat) : String :=
  "PROC-" ++ env.nowMs ++ "-" ++ toString idx ++ "-" ++ env.rand

/-- The process object built from one valid row (`extractTableData`,
step 4.3), before `normalizeProcesoData` runs. -/
structure ScrapedProc where
  id_proceso : String
  nombre_entidad : Option String
  entidad_nombre : Option String
  fecha_publicacion : Option String
  nomenclatura : Option String
  reiniciado_desde : Option String
  objeto_contratacion : Option String
  descripcion_objeto : Option String
  codigo_snip : Option String
  estado_proceso : String
  tipo_proceso : Option String
  url_proceso : Option String
  source_url : String
  pagina_scraping : String
  numero_convocatoria : Option String
  entidad_ruc : Option String
  codigo_cui : Option String
  departamento : Option String
  provincia : Option String
  distrito : Option String
  monto_referencial : Option String
  moneda : String
  rubro : Option String
  version_seace : String
  fecha_scraping : String
  requiere_visita_previa : Bool
  datos_ocds : Option String
  fecha_limite_presentacion : Option String
  deriving DecidableEq, Repr

/-- Build the process object for the row at position `idx`
(`extractTableData`, steps 4.1 and 4.3). -/
def mkProc (env : ScrapeEnv) (idx : Nat) (cells : RawRow) : ScrapedProc :=
  let nomenclatura := getCell cells 3
  let objeto := getCell cells 5
  let montoText := getCell cells 8
  { id_proceso := jsOrElse nomenclatura (genId env idx)
    nombre_entidad := getCell cells 1
    entidad_nombre := getCell cells 1
    fecha_publicacion := getCell cells 2
    nomenclatura := nomenclatura
    reiniciado_desde := getCell cells 4
    objeto_contratacion := objeto
    descripcion_objeto := getCell cells 6
    codigo_snip := jsOrNull (getCell cells 7)
    estado_proceso := "Publicado"
    tipo_proceso := none
    url_proceso := none
    source_url := env.pageUrl
    pagina_scraping := env.pageUrl
    numero_convocatoria := nomenclatura
    entidad_ruc := none
    codigo_cui := none
    departamento := none
    provincia := none
    distrito := none
    monto_referencial :=
      match montoText with
      | none => none
      | some t => if t ≠ "" ∧ t ≠ "---" then some t else none
    moneda := jsOrElse (getCell cells 9) "Soles"
    rubro := objeto
    version_seace := jsOrElse (getCell cells 10) "3"
    fecha_scraping := env.nowIso
    requiere_visita_previa := false
    datos_ocds := none
    fecha_limite_presentacion := none }

/-- The per-row loop of `extractTableData` (step 4): a row is kept iff
it has at least 7 cells, its ordinal cell parses as a number, its
entity cell is a non-header value and its description cell has at least
10 characters; every other row is skipped and the index advances. -/
def extractPage (env : ScrapeEnv) : Nat → List RawRow → List ScrapedProc
  | _, [] => []
  | idx, cells :: rest =>
    if cells.length < 7 then extractPage env (idx + 1) rest
    else
      if isNumberJS (getCell cells 0) && isNotHeaderJS (getCell cells 1)
          && hasDescLength (getCell cells 6) then
        mkProc env idx cells :: extractPage env (idx + 1) rest
      else extractPage env (idx + 1) rest

/-! ## Record normalization (`normalizeProcesoData`) -/

/-- Step 5 of `normalizeProcesoData` as it acts on one optional string
field: empty or whitespace-only strings become null. -/
def emptyToNull (v : Option String) : Option String :=
  match v with
  | none => none
  | some s => if s = "" ∨ jsTrim s.data = [] then none else some s

/-- A normalized process record, as produced by `normalizeProcesoData`:
the publication date reformatted, the amount parsed to a number, the
currency and SEACE-version defaulted, empty strings nulled, and the
identity and entity-name fields guaranteed present. -/
structure NormProc where
  id_proceso : String
  nombre_entidad : String
  entidad_nombre : Option String
  fecha_publicacion : Option String
  nomenclatura : Option String
  reiniciado_desde : Option String
  objeto_contratacion : Option String
  descripcion_objeto : Option String
  codigo_snip : Option String
  estado_proceso : Option String
  tipo_proceso : Option String
  url_proceso : Option String
  source_url : Option String
  pagina_scraping : Option String
  numero_convocatoria : Option String
  entidad_ruc : Option String
  codigo_cui : Option String
  departamento : Option String
  provincia : Option String
  distrito : Option String
  monto_referencial : Option DecVal
  moneda : String
  rubro : Option String
  version_seace : String
  fecha_scraping : Option String
  requiere_visita_previa : Bool
  datos_ocds : Option String
  fecha_limite_presentacion : Option String
  deriving DecidableEq, Repr

/-- Generated fallback identifier used by step 6 of
`normalizeProcesoData` (`PROC-${Date.now()}-${randomSuffix}`, no row
index). -/
def genId2 (env : ScrapeEnv) : String :=
  "PROC-" ++ env.nowMs ++ "-" ++ env.rand

/-- Model of `normalizeProcesoData`: step 1 reformats the date, step 2 parses
the amount, steps 3–4 default currency and SEACE version, step 5 nulls
empty/whitespace strings, step 6 restores `id_proceso` (regenerated) and
`nombre_entidad` (`"Entidad Desconocida"`) when they ended up falsy. -/
def normalizeProcesoData (env : ScrapeEnv) (p : ScrapedProc) : NormProc :=
  let moneda := if jsTrim p.moneda.data = [] then "Soles" else p.moneda
  let version := if jsTrim p.version_seace.data = [] then "3" else p.version_seace
  let idAfterSweep := emptyToNull (some p.id_proceso)
  { id_proceso := match idAfterSweep with
      | some s => s
      | none => genId2 env
    nombre_entidad := match emptyToNull p.nombre_entidad with
      | some s => s
      | none => "Entidad Desconocida"
    entidad_nombre := emptyToNull p.entidad_nombre
    fecha_publicacion := normFecha p.fecha_publicacion
    nomenclatura := emptyToNull p.nomenclatura
    reiniciado_desde := emptyToNull p.reiniciado_desde
    objeto_contratacion := emptyToNull p.objeto_contratacion
    descripcion_objeto := emptyToNull p.descripcion_objeto
    codigo_snip := emptyToNull p.codigo_snip
    estado_proceso := emptyToNull (some p.estado_proceso)
    tipo_proceso := emptyToNull p.tipo_proceso
    url_proceso := emptyToNull p.url_proceso
    source_url := emptyToNull (some p.source_url)
    pagina_scraping := emptyToNull (some p.pagina_scraping)
    numero_convocatoria := emptyToNull p.numero_convocatoria
    entidad_ruc := emptyToNull p.entidad_ruc
    codigo_cui := emptyToNull p.codigo_cui
    departamento := emptyToNull p.departamento
    provincia := emptyToNull p.provincia
    distrito := emptyToNull p.distrito
    monto_referencial := normMonto p.monto_referencial
    moneda := moneda
    rubro := emptyToNull p.rubro
    version_seace := version
    fecha_scraping := emptyToNull (some p.fecha_scraping)
    requiere_visita_previa := p.requiere_visita_previa
    datos_ocds := emptyToNull p.datos_ocds
    fecha_limite_presentacion := emptyToNull p.fecha_limite_presentacion }

/-- Model of `extractTableData`: extract the valid rows of the current page, then
normalize each (`data.map(proceso => this.normalizeProcesoData(proceso))`). -/
def extractPageFull (env : ScrapeEnv) (rows : List RawRow) : List NormProc :=
  (extractPage env 0 rows).map (normalizeProcesoData env)

/-! ## ETL schema mapping (`ETLService.mapScrapeDataToProcesoSchema`) -/

/-- The exact field set accepted by the `procesos` table, as assembled
by `mapScrapeDataToProcesoSchema`. -/
structure MappedProc where
  id_proceso : String
  nombre_entidad : Option String
  entidad_nombre : Option String
  fecha_publicacion : Option String
  nomenclatura : Option String
  reiniciado_desde : Option String
  objeto_contratacion : Option String
  descripcion_objeto : Option String
  estado_proceso : String
  tipo_proceso : Option String
  url_proceso : Option String
  source_url : Option String
  pagina_scraping : Option String
  numero_convocatoria : Option String
  entidad_ruc : Option String
  codigo_snip : Option String
  codigo_cui : Option String
  departamento : Option String
  provincia : Option String
  distrito : Option String
  monto_referencial : Option DecVal
  moneda : String
  rubro : Option String
  fecha_scraping : String
  fecha_limite_presentacion : Option String
  version_seace : String
  requiere_visita_previa : Bool
  datos_ocds : Option String
  deriving DecidableEq, Repr

/-- JS `x || null` for an optional numeric field: a JS number is falsy
exactly when its value is zero (`NaN` never reaches this point — the
normalizer already turned it into null). -/
def jsOrNullNum (v : Option DecVal) : Option DecVal :=
  match v with
  | none => none
  | some d => if d.num = 0 then none else some d

/-- Model of `mapScrapeDataToProcesoSchema`: every field is passed through a JS
`||` default — `null` for plain fields, `'Publicado'`, `'Soles'`,
`'3'`, `false`, or the current ISO timestamp (`now`) for the defaulted
ones.  `id_proceso` alone is copied verbatim. -/
def mapScrapeDataToProcesoSchema (now : String) (p : NormProc) : MappedProc :=
  { id_proceso := p.id_proceso
    nombre_entidad := jsOrNull (some p.nombre_entidad)
    entidad_nombre := jsOrNull p.entidad_nombre
    fecha_publicacion := jsOrNull p.fecha_publicacion
    nomenclatura := jsOrNull p.nomenclatura
    reiniciado_desde := jsOrNull p.reiniciado_desde
    objeto_contratacion := jsOrNull p.objeto_contratacion
    descripcion_objeto := jsOrNull p.descripcion_objeto
    estado_proceso := jsOrElse p.estado_proceso "Publicado"
    tipo_proceso := jsOrNull p.tipo_proceso
    url_proceso := jsOrNull p.url_proceso
    source_url := jsOrNull p.source_url
    pagina_scraping := jsOrNull p.pagina_scraping
    numero_convocatoria := jsOrNull p.numero_convocatoria
    entidad_ruc := jsOrNull p.entidad_ruc
    codigo_snip := jsOrNull p.codigo_snip
    codigo_cui := jsOrNull p.codigo_cui
    departamento := jsOrNull p.departamento
    provincia := jsOrNull p.provincia
    distrito := jsOrNull p.distrito
    monto_referencial := jsOrNullNum p.monto_referencial
    moneda := if p.moneda = "" then "Soles" else p.moneda
    rubro := jsOrNull p.rubro
    fecha_scraping := jsOrElse p.fecha_scraping now
    fecha_limite_presentacion := jsOrNull p.fecha_limite_presentacion
    version_seace := if p.version_seace = "" then "3" else p.version_seace
    requiere_visita_previa := p.requiere_visita_previa || false
    datos_ocds := jsOrNull p.datos_ocds }

/-! ## Ingestion store (`Proceso.findOrCreate` + `update`)

The `procesos` table is modelled as an association list from
`id_proceso` to the stored field set. -/

/-- Model of the lookup `Proceso.findOne` keyed by `id_proceso`. -/
def lookupDb (db : List (String × MappedProc)) (id : String) : Option MappedProc :=
  (db.find? (fun e => e.1 = id)).map (fun e => e.2)

/-- Model of `instance.update(fields)` on the record keyed `id`. -/
def updateDb (db : List (String × MappedProc)) (id : String) (m : MappedProc) :
    List (String × MappedProc) :=
  db.map (fun e => if e.1 = id then (e.1, m) else e)

/-- Number of stored records carrying the key `id`. -/
def countKey (db : List (String × MappedProc)) (id : String) : Nat :=
  db.countP (fun e => e.1 = id)

/-- The store's upsert, as the persistence loop performs it:
`findOrCreate` keyed by `id_proceso` (insert with the mapped fields as
defaults and report `created = true`), else update the existing row in
place and report `created = false`. -/
def upsert (db : List (String × MappedProc)) (m : MappedProc) :
    List (String × MappedProc) × Bool :=
  match lookupDb db m.id_proceso with
  | none => (db ++ [(m.id_proceso, m)], true)
  | some _ => (updateDb db m.id_proceso m, false)

/-! ## Persistence loop (`ETLService.performScraping`, BD phase) -/

/-- JS defaulting of the insert cap:
`const maxNewProcesses = params.maxProcesses || null` — `null` and `0`
both disable the cap. -/
def effInsertCap (p : Option Int) : Option Int :=
  match p with
  | none => none
  | some n => if n = 0 then none else some n

/-- JS defaulting of the scraper cap:
`maxProcesses: params.maxProcesses || 100` — `null` and `0` both become
`100`. -/
def effScraperMax (p : Option Int) : Option Int :=
  match p with
  | none => some 100
  | some n => if n = 0 then some 100 else some n

/-- Running counters and table state of the persistence loop. -/
structure PersistState where
  db : List (String × MappedProc)
  saved : Nat
  updated : Nat
  errored : Nat
  newIns : Nat
  deriving Repr

/-- The guard `if (maxNewProcesses && newProcessesInserted >= maxNewProcesses)`:
the cap-reached guard of the loop body (the cap is never `0` here, since
`effInsertCap` already collapsed `0` to `none`). -/
def capReached (cap : Option Int) (newIns : Nat) : Bool :=
  match cap with
  | none => false
  | some k => decide ((k : Int) ≤ (newIns : Int))

/-- One iteration of the persistence loop over a normalized record.
`dbFails` marks the records whose database call throws; the
surrounding `try/catch` turns any such throw into an `errorCount`
increment.  When the cap is reached, an existing record is refreshed
(`update`) and a fresh one is skipped; otherwise the record is mapped,
a falsy `id_proceso` throws (`id_proceso es requerido` — caught into the
error count), and the record goes through `findOrCreate`-then-`update`
with the counters tracking created vs updated. -/
def persistStep (cap : Option Int) (dbFails : NormProc → Bool) (now : String)
    (st : PersistState) (row : NormProc) : PersistState :=
  if dbFails row then { st with errored := st.errored + 1 }
  else if capReached cap st.newIns then
    match lookupDb st.db row.id_proceso with
    | some _ =>
      { st with db := updateDb st.db row.id_proceso (mapScrapeDataToProcesoSchema now row)
                updated := st.updated + 1 }
    | none => st
  else
    let m := mapScrapeDataToProcesoSchema now row
    if m.id_proceso = "" then { st with errored := st.errored + 1 }
    else
      match upsert st.db m with
      | (db2, true) => { st with db := db2, saved := st.saved + 1, newIns := st.newIns + 1 }
      | (db2, false) => { st with db := db2, updated := st.updated + 1 }

/-- The full persistence loop (`for (const procesoData of results)`). -/
def persistLoop (cap : Option Int) (dbFails : NormProc → Bool) (now : String)
    (rows : List NormProc) (st : PersistState) : PersistState :=
  rows.foldl (persistStep cap dbFails now) st

/-! ## Pagination loop (`SeaceScraper.searchProcesses`, step 6)

The finite page source is a list of pages (the head is the page the
browser currently shows); `hasNextPage()` reports whether further pages
remain and `goToNextPage()` advances to the next one.  The loop is
written with explicit fuel so that its termination is a provable
statement rather than a by-construction artifact: `none` means the fuel
ran out with the loop still running. -/

/-- The `while` guard `hasMorePages && (maxProcesses === null ||
allResults.length < maxProcesses)`, specialized to re-entry points where
`hasMorePages` is `true`. -/
def loopGuard (maxP : Option Int) (len : Nat) : Bool :=
  match maxP with
  | none => true
  | some k => decide ((len : Int) < k)

/-- The mid-loop break `if (maxProcesses && allResults.length >=
maxProcesses)` (JS truthiness: a cap of `0` is falsy). -/
def capBreak (maxP : Option Int) (len : Nat) : Bool :=
  match maxP with
  | none => false
  | some k => decide (k ≠ 0) && decide ((k : Int) ≤ (len : Nat))

/-- One run of the page-extraction loop: extract the current page
(`pageResults`), stop on an empty page, stop once the cap is filled
(`allResults.length >= maxProcesses`), stop when `hasNextPage()` is
false, otherwise advance to the next page. -/
def scrapeLoop (env : ScrapeEnv) :
    Nat → List (List RawRow) → Option Int → List NormProc → Option (List NormProc)
  | 0, _, _, _ => none
  | fuel + 1, pages, maxP, acc =>
    if loopGuard maxP acc.length then
      if (extractPageFull env (pages.headD [])).length = 0 then some acc
      else if capBreak maxP (acc ++ extractPageFull env (pages.headD [])).length then
        some (acc ++ extractPageFull env (pages.headD []))
      else if pages.tail.isEmpty then some (acc ++ extractPageFull env (pages.headD []))
      else scrapeLoop env fuel pages.tail maxP (acc ++ extractPageFull env (pages.headD []))
    else some acc

/-- One unfolding step of `scrapeLoop` (definitional). -/
lemma scrapeLoop_succ (env : ScrapeEnv) (fuel : Nat) (pages : List (List RawRow))
    (maxP : Option Int) (acc : List NormProc) :
    scrapeLoop env (fuel + 1) pages maxP acc
      = if loopGuard maxP acc.length then
          if (extractPageFull env (pages.headD [])).length = 0 then some acc
          else if capBreak maxP (acc ++ extractPageFull env (pages.headD [])).length then
            some (acc ++ extractPageFull env (pages.headD []))
          else if pages.tail.isEmpty then some (acc ++ extractPageFull env (pages.headD []))
          else scrapeLoop env fuel pages.tail maxP (acc ++ extractPageFull env (pages.headD []))
        else some acc := rfl

/-- The accumulator `allResults` when the loop finishes with the supplied fuel. -/
def searchAccum (env : ScrapeEnv) (pages : List (List RawRow)) (maxP : Option Int) :
    List NormProc :=
  (scrapeLoop env (pages.length + 1) pages maxP []).getD []

/-- Total number of rows accumulated by extraction (before the final
slice). -/
def extractedTotal (env : ScrapeEnv) (pages : List (List RawRow)) (maxP : Option Int) :
    Nat :=
  (searchAccum env pages maxP).length

/-- The return value `allResults.slice(0, maxProcesses)` guarded by JS truthiness:
`return maxProcesses ? allResults.slice(0, maxProcesses) : allResults`.
(A negative cap would slice from the end, but then the loop guard has
already produced an empty accumulator, so taking `toNat` is exact.) -/
def searchResults (env : ScrapeEnv) (pages : List (List RawRow)) (maxP : Option Int) :
    List NormProc :=
  match maxP with
  | none => searchAccum env pages maxP
  | some k =>
    if k = 0 then searchAccum env pages maxP
    else (searchAccum env pages maxP).take k.toNat

/-! ## ETL run (`ETLService.performScraping`) -/

/-- Observable outcome of one ETL scraping operation, as written to the
`ETLLog` row: terminal status plus the separated counters. -/
structure EtlOutcome where
  status : String
  inserted : Nat
  updated : Nat
  errored : Nat
  deriving DecidableEq, Repr

/-- Model of `performScraping`: run the scraper with `params.maxProcesses || 100`,
persist the returned records under the insert cap
`params.maxProcesses || null`, and finalize the log as `completed`; any
scraper-level throw (`scraperFails`) is caught and finalizes the log as
`failed` with `error_count: 1`. -/
def performScraping (env : ScrapeEnv) (scraperFails : Bool)
    (dbFails : NormProc → Bool) (maxP : Option Int)
    (pages : List (List RawRow)) (db0 : List (String × MappedProc)) : EtlOutcome :=
  if scraperFails then ⟨"failed", 0, 0, 1⟩
  else
    let results := searchResults env pages (effScraperMax maxP)
    let st := persistLoop (effInsertCap maxP) dbFails env.nowIso results ⟨db0, 0, 0, 0, 0⟩
    ⟨"completed", st.saved, st.updated, st.errored⟩

/-! ## Form-driving steps (SeaceScraper, steps 2–5)

Each step's control flow over the remote page is modelled by a small
environment of outcomes of the individual page queries.  The observable
result of a step is whether it returns normally (`ok`), returns after
only logging (`warned`), or propagates an error to the caller and fails
the run (`fatal`). -/

/-- Observable result of one form-driving step. -/
inductive StepResult
  | ok
  | warned
  | fatal
  deriving DecidableEq, Repr

/-- Outcomes of the page queries the form-driving steps perform. -/
structure UiEnv where
  /-- a tab whose label contains "Procedimiento"/"Buscar" exists -/
  tabTextFound : Bool
  /-- that tab is already active -/
  tabActive : Bool
  /-- some inactive tab exists for the fallback click -/
  anyInactiveTab : Bool
  /-- the tab-selection page calls throw -/
  tabThrows : Bool
  /-- the contract-object `select` element exists -/
  objSelectFound : Bool
  /-- a matching `option` was found and committed -/
  objOptionFound : Bool
  /-- the contract-object page calls throw -/
  objThrows : Bool
  /-- the year `select` element exists -/
  anioFound : Bool
  /-- the year page calls throw -/
  anioThrows : Bool
  /-- the from-date input was found and set -/
  fechaDesdeOk : Bool
  /-- the to-date input was found and set -/
  fechaHastaOk : Bool
  /-- the description input exists -/
  descFound : Bool
  /-- the description page calls throw -/
  descThrows : Bool
  /-- the submit button `btnBuscarSel` exists -/
  btnFound : Bool
  /-- the in-page `button.click()` evaluation returned true -/
  btnClickTrue : Bool
  /-- the submit page calls throw -/
  btnThrows : Bool
  /-- the results table appeared within the timeout -/
  resultsAppear : Bool
  deriving DecidableEq, Repr

/-- Model of `selectProcedimientosSeleccion`: find a tab by label text, click it
when inactive, fall back to the first inactive tab, and otherwise log a
warning; the whole body is wrapped in `try/catch` that only warns. -/
def selectProcedimientosSeleccion (env : UiEnv) : StepResult :=
  if env.tabThrows then .warned
  else if env.tabTextFound then .ok
  else if env.anyInactiveTab then .ok
  else .warned

/-- Model of `selectObjetoContratacion`: resolve the label through the static
value map and commit the selection; every failure path only warns. -/
def selectObjetoContratacion (env : UiEnv) : StepResult :=
  if env.objThrows then .warned
  else if env.objSelectFound then
    if env.objOptionFound then .ok else .warned
  else .warned

/-- Model of `selectAnio`: locate the year select and set it; failures warn. -/
def selectAnio (env : UiEnv) : StepResult :=
  if env.anioThrows then .warned
  else if env.anioFound then .ok
  else .warned

/-- Model of `setFechaPublicacion`: set both date inputs; each is individually
best-effort and the function only returns a boolean. -/
def setFechaPublicacion (env : UiEnv) : StepResult :=
  if env.fechaDesdeOk && env.fechaHastaOk then .ok else .warned

/-- Model of `fillDescripcion`: locate the description input and type into it;
failures warn. -/
def fillDescripcion (env : UiEnv) : StepResult :=
  if env.descThrows then .warned
  else if env.descFound then .ok
  else .warned

/-- Model of `clickBuscar`: locate the submit button and click it through
`page.evaluate`; a missing button, a failed click and a thrown page call
all end in `logger.warn`/`logger.error` with a normal return — the
`catch` block does not rethrow. -/
def clickBuscar (env : UiEnv) : StepResult :=
  if env.btnThrows then .warned
  else if env.btnFound then
    if env.btnClickTrue then .ok else .warned
  else .warned

/-- Model of `waitForResults`: wait for `table[role="grid"] tbody tr`; a timeout
is rethrown as `No se encontraron resultados en el tiempo esperado`,
failing the run. -/
def waitForResults (env : UiEnv) : StepResult :=
  if env.resultsAppear then .ok else .fatal

/-! ## Concrete data used by the witnesses and counterexamples -/

/-- A fixed ambient environment for concrete runs. -/
def cEnv : ScrapeEnv :=
  { nowMs := "1760000000000"
    rand := "k3j9q2w7x"
    pageUrl := "https://prodapp2.seace.gob.pe/seacebus-uiwd-pub/buscadorPublico/buscadorPublico.xhtml"
    nowIso := "2025-10-09T14:30:00.000Z" }

/-- A representative valid SEACE result row (11 columns). -/
def sampleRow : RawRow :=
  [some "1", some "GOBIERNO REGIONAL DE LIMA", some "09/10/2025 14:30",
   some "LP-SM-1-2025-GRL-1", none, some "Servicio",
   some "SERVICIO DE DESARROLLO DE SOFTWARE DE GESTION DOCUMENTAL",
   none, some "1.234.567,89", some "Soles", some "3"]

/-- A 40-row results page made of valid rows. -/
def samplePage : List RawRow := List.replicate 40 sampleRow

/-- A three-page source of 120 valid rows (the scenario of the spec's
bounded-run property). -/
def srcC3 : List (List RawRow) := [samplePage, samplePage, samplePage]

/-- The row `sampleRow` normalized, as the persistence loop receives
it. -/
def sampleNorm : NormProc := normalizeProcesoData cEnv (mkProc cEnv 0 sampleRow)

/-- The record `sampleNorm` after the ETL schema mapping. -/
def sampleMapped : MappedProc := mapScrapeDataToProcesoSchema cEnv.nowIso sampleNorm

/-- A structurally valid row whose ordinal cell is `"0"` (not a
positive integer). -/
def rowZero : RawRow :=
  [some "0", some "GOBIERNO REGIONAL DE LIMA", some "09/10/2025 14:30",
   some "LP-SM-2-2025-GRL-1", none, some "Servicio",
   some "SERVICIO DE MANTENIMIENTO DE PLATAFORMA WEB",
   none, some "---", some "Soles", some "3"]

/-- A page state in which every control is present and behaving except
the submit button, which cannot be located. -/
def noButtonEnv : UiEnv :=
  { tabTextFound := true, tabActive := false, anyInactiveTab := true, tabThrows := false
    objSelectFound := true, objOptionFound := true, objThrows := false
    anioFound := true, anioThrows := false
    fechaDesdeOk := true, fechaHastaOk := true
    descFound := true, descThrows := false
    btnFound := false, btnClickTrue := false, btnThrows := false
    resultsAppear := true }

example : (extractPageFull cEnv samplePage).length = 40 := by decide
example : sampleNorm.id_proceso = "LP-SM-1-2025-GRL-1" := by decide
example : sampleNorm.fecha_publicacion = some "2025-10-09 14:30" := by decide
example : sampleNorm.monto_referencial = some ⟨123456789, 100⟩ := by decide

/-! ## Store lemmas -/

lemma updateDb_map_fst (db : List (String × MappedProc)) (id : String) (m : MappedProc) :
    (updateDb db id m).map Prod.fst = db.map Prod.fst := by
  induction db with
  | nil => rfl
  | cons e t ih =>
    simp only [updateDb, List.map_cons] at *
    by_cases h : e.1 = id <;> simp [h, ih]

lemma countKey_updateDb (db : List (String × MappedProc)) (id : String) (m : MappedProc)
    (id2 : String) : countKey (updateDb db id m) id2 = countKey db id2 := by
  induction db with
  | nil => rfl
  | cons e t ih =>
    simp only [updateDb, countKey, List.map_cons, List.countP_cons] at *
    by_cases h : e.1 = id
    · simp [h, ih]
    · simp [h, ih]

lemma lookupDb_append_right (db : List (String × MappedProc)) (id : String)
    (m : MappedProc) (h : lookupDb db id = none) :
    lookupDb (db ++ [(id, m)]) id = some m := by
  induction db with
  | nil => simp [lookupDb]
  | cons e t ih =>
    by_cases he : e.1 = id
    · simp [lookupDb, List.find?_cons, he] at h
    · simp only [lookupDb, List.cons_append, List.find?_cons, decide_eq_false he] at h ⊢
      exact ih h

lemma lookupDb_updateDb_self (db : List (String × MappedProc)) (id : String)
    (m m0 : MappedProc) (h : lookupDb db id = some m0) :
    lookupDb (updateDb db id m) id = some m := by
  induction db with
  | nil => simp [lookupDb] at h
  | cons e t ih =>
    by_cases he : e.1 = id
    · simp [lookupDb, updateDb, List.find?_cons, he]
    · simp only [lookupDb, updateDb, List.map_cons, if_neg he, List.find?_cons,
        decide_eq_false he] at h ⊢
      exact ih h

lemma countKey_append (db : List (String × MappedProc)) (id : String) (m : MappedProc) :
    countKey (db ++ [(id, m)]) id = countKey db id + 1 := by
  simp [countKey, List.countP_append, List.countP_cons]

lemma countKey_zero_of_lookup_none (db : List (String × MappedProc)) (id : String)
    (h : lookupDb db id = none) : countKey db id = 0 := by
  induction db with
  | nil => rfl
  | cons e t ih =>
    by_cases he : e.1 = id
    · simp [lookupDb, List.find?_cons, he] at h
    · simp only [lookupDb, List.find?_cons, decide_eq_false he] at h
      have h2 := ih h
      simp only [countKey, List.countP_cons, decide_eq_false he] at h2 ⊢
      simpa using h2

/-! ## Persistence-loop lemmas -/

lemma persistStep_newIns_le (k : Int) (dbFails : NormProc → Bool) (now : String)
    (st : PersistState) (row : NormProc) (h : (st.newIns : Int) ≤ k) :
    ((persistStep (some k) dbFails now st row).newIns : Int) ≤ k := by
  unfold persistStep
  by_cases hf : dbFails row
  · simp [hf, h]
  · simp only [hf, Bool.false_eq_true, if_false]
    by_cases hc : capReached (some k) st.newIns
    · rw [if_pos hc]
      cases hl : lookupDb st.db row.id_proceso <;> simp [h]
    · rw [if_neg hc]
      have hlt : (st.newIns : Int) < k := by
        simp only [capReached, decide_eq_true_eq] at hc
        omega
      by_cases hid : (mapScrapeDataToProcesoSchema now row).id_proceso = ""
      · simp [hid, h]
      · simp only [hid, if_false]
        cases hu : upsert st.db (mapScrapeDataToProcesoSchema now row) with
        | mk db2 created =>
          cases created <;> simp <;> omega

lemma persistLoop_newIns_le (k : Int) (dbFails : NormProc → Bool) (now : String)
    (rows : List NormProc) (st : PersistState) (h : (st.newIns : Int) ≤ k) :
    ((persistLoop (some k) dbFails now rows st).newIns : Int) ≤ k := by
  induction rows generalizing st with
  | nil => exact h
  | cons r t ih =>
    exact ih _ (persistStep_newIns_le k dbFails now st r h)

lemma persistStep_saved_newIns (cap : Option Int) (dbFails : NormProc → Bool)
    (now : String) (st : PersistState) (row : NormProc) :
    (persistStep cap dbFails now st row).saved + st.newIns
      = (persistStep cap dbFails now st row).newIns + st.saved := by
  unfold persistStep
  by_cases hf : dbFails row
  · simp [hf, Nat.add_comm]
  · simp only [hf, Bool.false_eq_true, if_false]
    by_cases hc : capReached cap st.newIns
    · rw [if_pos hc]
      cases hl : lookupDb st.db row.id_proceso <;> simp [Nat.add_comm]
    · rw [if_neg hc]
      by_cases hid : (mapScrapeDataToProcesoSchema now row).id_proceso = ""
      · simp [hid, Nat.add_comm]
      · simp only [hid, if_false]
        cases hu : upsert st.db (mapScrapeDataToProcesoSchema now row) with
        | mk db2 created => cases created <;> simp <;> omega

lemma persistLoop_saved_newIns (cap : Option Int) (dbFails : NormProc → Bool)
    (now : String) (rows : List NormProc) (st : PersistState) :
    (persistLoop cap dbFails now rows st).saved + st.newIns
      = (persistLoop cap dbFails now rows st).newIns + st.saved := by
  induction rows generalizing st with
  | nil => simp [persistLoop, Nat.add_comm]
  | cons r t ih =>
    have h1 := persistStep_saved_newIns cap dbFails now st r
    have h2 := ih (persistStep cap dbFails now st r)
    simp only [persistLoop, List.foldl_cons] at *
    omega

lemma persistStep_errored (cap : Option Int) (dbFails : NormProc → Bool) (now : String)
    (st : PersistState) (row : NormProc) (hid : row.id_proceso ≠ "") :
    (persistStep cap dbFails now st row).errored
      = st.errored + (if dbFails row then 1 else 0) := by
  unfold persistStep
  by_cases hf : dbFails row
  · simp [hf]
  · simp only [hf, Bool.false_eq_true, if_false]
    by_cases hc : capReached cap st.newIns
    · rw [if_pos hc]
      cases hl : lookupDb st.db row.id_proceso <;> simp
    · rw [if_neg hc]
      have hmid : (mapScrapeDataToProcesoSchema now row).id_proceso = row.id_proceso := rfl
      rw [hmid, if_neg hid]
      cases hu : upsert st.db (mapScrapeDataToProcesoSchema now row) with
      | mk db2 created => cases created <;> simp

lemma persistLoop_errored (cap : Option Int) (dbFails : NormProc → Bool) (now : String)
    (rows : List NormProc) (st : PersistState)
    (hids : ∀ r ∈ rows, r.id_proceso ≠ "") :
    (persistLoop cap dbFails now rows st).errored = st.errored + rows.countP dbFails := by
  induction rows generalizing st with
  | nil => simp [persistLoop]
  | cons r t ih =>
    have h1 := persistStep_errored cap dbFails now st r (hids r (by simp))
    have h2 := ih (persistStep cap dbFails now st r) (fun x hx => hids x (by simp [hx]))
    simp only [persistLoop, List.foldl_cons] at *
    rw [h2, h1, List.countP_cons]
    by_cases hf : dbFails r
    · simp [hf]; omega
    · simp [hf]

lemma persistStep_capReached (k : Int) (dbFails : NormProc → Bool) (now : String)
    (st : PersistState) (row : NormProc) (h : k ≤ (st.newIns : Int)) :
    (persistStep (some k) dbFails now st row).newIns = st.newIns
    ∧ (persistStep (some k) dbFails now st row).saved = st.saved
    ∧ ((persistStep (some k) dbFails now st row).db).map Prod.fst
        = (st.db).map Prod.fst := by
  have hc : capReached (some k) st.newIns = true := by
    simp [capReached, h]
  unfold persistStep
  by_cases hf : dbFails row
  · simp [hf]
  · simp only [hf, Bool.false_eq_true, if_false, hc, if_true]
    cases hl : lookupDb st.db row.id_proceso with
    | none => simp
    | some m0 => simp [updateDb_map_fst]

lemma persistStep_newIns_succ_le (cap : Option Int) (dbFails : NormProc → Bool)
    (now : String) (st : PersistState) (row : NormProc) :
    (persistStep cap dbFails now st row).newIns ≤ st.newIns + 1 := by
  unfold persistStep
  by_cases hf : dbFails row
  · simp [hf]
  · simp only [hf, Bool.false_eq_true, if_false]
    by_cases hc : capReached cap st.newIns
    · rw [if_pos hc]
      cases hl : lookupDb st.db row.id_proceso <;> simp
    · rw [if_neg hc]
      by_cases hid : (mapScrapeDataToProcesoSchema now row).id_proceso = ""
      · simp [hid]
      · simp only [hid, if_false]
        cases hu : upsert st.db (mapScrapeDataToProcesoSchema now row) with
        | mk db2 created => cases created <;> simp

lemma persistStep_counts (k : Int) (dbFails : NormProc → Bool) (now : String)
    (st : PersistState) (row : NormProc) (hid : row.id_proceso ≠ "")
    (hlt : (st.newIns : Int) < k) :
    (persistStep (some k) dbFails now st row).saved
      + (persistStep (some k) dbFails now st row).updated
      + (persistStep (some k) dbFails now st row).errored
      = st.saved + st.updated + st.errored + 1 := by
  have hcr : ¬ capReached (some k) st.newIns = true := by
    simp only [capReached, decide_eq_true_eq]
    omega
  unfold persistStep
  by_cases hf : dbFails row
  · simp [hf]
    omega
  · simp only [hf, Bool.false_eq_true, if_false]
    rw [if_neg hcr]
    have hmid : (mapScrapeDataToProcesoSchema now row).id_proceso = row.id_proceso := rfl
    rw [hmid, if_neg hid]
    cases hu : upsert st.db (mapScrapeDataToProcesoSchema now row) with
    | mk db2 created => cases created <;> simp <;> omega

lemma persistLoop_counts (k : Int) (dbFails : NormProc → Bool) (now : String)
    (rows : List NormProc) (st : PersistState)
    (hids : ∀ r ∈ rows, r.id_proceso ≠ "")
    (hcap : (st.newIns : Int) + rows.length ≤ k) :
    (persistLoop (some k) dbFails now rows st).saved
      + (persistLoop (some k) dbFails now rows st).updated
      + (persistLoop (some k) dbFails now rows st).errored
      = st.saved + st.updated + st.errored + rows.length := by
  induction rows generalizing st with
  | nil => simp [persistLoop]
  | cons r t ih =>
    have hlt : (st.newIns : Int) < k := by
      simp only [List.length_cons] at hcap
      push_cast at hcap
      omega
    have hstep := persistStep_counts k dbFails now st r (hids r (by simp)) hlt
    have hni := persistStep_newIns_succ_le (some k) dbFails now st r
    have hcap2 : ((persistStep (some k) dbFails now st r).newIns : Int) + t.length ≤ k := by
      simp only [List.length_cons] at hcap
      push_cast at hcap ⊢
      omega
    have ih2 := ih (persistStep (some k) dbFails now st r)
      (fun x hx => hids x (by simp [hx])) hcap2
    simp only [persistLoop, List.foldl_cons, List.length_cons] at *
    omega

/-! ## Identity-field lemmas -/

lemma genId2_ne_empty (env : ScrapeEnv) : genId2 env ≠ "" := by
  intro h
  have h2 := congrArg String.length h
  simp [genId2, String.length_append] at h2
  exact absurd h2.1.1.1 (by decide)

lemma normalizeProcesoData_id_ne (env : ScrapeEnv) (p : ScrapedProc) :
    (normalizeProcesoData env p).id_proceso ≠ "" := by
  unfold normalizeProcesoData
  simp only [emptyToNull]
  by_cases h : p.id_proceso = "" ∨ jsTrim p.id_proceso.data = []
  · simp only [h, if_true]
    exact genId2_ne_empty env
  · simp only [h, if_false]
    push_neg at h
    exact h.1

lemma extractPageFull_id_ne (env : ScrapeEnv) (rows : List RawRow) :
    ∀ x ∈ extractPageFull env rows, x.id_proceso ≠ "" := by
  intro x hx
  simp only [extractPageFull, List.mem_map] at hx
  obtain ⟨y, _, rfl⟩ := hx
  exact normalizeProcesoData_id_ne env y

/-! ## Pagination-loop lemmas -/

lemma scrapeLoop_isSome (env : ScrapeEnv) (maxP : Option Int) :
    ∀ (pages : List (List RawRow)) (acc : List NormProc),
      (scrapeLoop env (pages.length + 1) pages maxP acc).isSome = true := by
  intro pages
  induction pages with
  | nil =>
    intro acc
    rw [List.length_nil, scrapeLoop_succ]
    have h0 : (extractPageFull env (([] : List (List RawRow)).headD [])).length = 0 := rfl
    by_cases hg : loopGuard maxP acc.length = true
    · rw [if_pos hg, if_pos h0]
      rfl
    · rw [if_neg hg]
      rfl
  | cons p rest ih =>
    intro acc
    rw [List.length_cons, scrapeLoop_succ]
    by_cases hg : loopGuard maxP acc.length = true
    · rw [if_pos hg]
      by_cases h0 : (extractPageFull env ((p :: rest).headD [])).length = 0
      · rw [if_pos h0]; rfl
      · rw [if_neg h0]
        by_cases hcb :
            capBreak maxP (acc ++ extractPageFull env ((p :: rest).headD [])).length = true
        · rw [if_pos hcb]; rfl
        · rw [if_neg hcb]
          by_cases he : ((p :: rest).tail).isEmpty = true
          · rw [if_pos he]; rfl
          · rw [if_neg he, List.tail_cons]
            exact ih _
    · rw [if_neg hg]
      rfl

lemma scrapeLoop_id_ne (env : ScrapeEnv) (maxP : Option Int) :
    ∀ (fuel : Nat) (pages : List (List RawRow)) (acc res : List NormProc),
      scrapeLoop env fuel pages maxP acc = some res →
      (∀ x ∈ acc, x.id_proceso ≠ "") → ∀ x ∈ res, x.id_proceso ≠ "" := by
  intro fuel
  induction fuel with
  | zero =>
    intro pages acc res h
    simp [scrapeLoop] at h
  | succ n ih =>
    intro pages acc res h hacc
    have hacc2 : ∀ x ∈ acc ++ extractPageFull env (pages.headD []), x.id_proceso ≠ "" := by
      intro x hx
      rcases List.mem_append.mp hx with hx1 | hx2
      · exact hacc x hx1
      · exact extractPageFull_id_ne env _ x hx2
    rw [scrapeLoop_succ] at h
    by_cases hg : loopGuard maxP acc.length = true
    · rw [if_pos hg] at h
      by_cases h0 : (extractPageFull env (pages.headD [])).length = 0
      · rw [if_pos h0] at h
        cases h
        exact hacc
      · rw [if_neg h0] at h
        by_cases hcb :
            capBreak maxP (acc ++ extractPageFull env (pages.headD [])).length = true
        · rw [if_pos hcb] at h
          cases h
          exact hacc2
        · rw [if_neg hcb] at h
          by_cases he : (pages.tail).isEmpty = true
          · rw [if_pos he] at h
            cases h
            exact hacc2
          · rw [if_neg he] at h
            exact ih pages.tail _ res h hacc2
    · rw [if_neg hg] at h
      cases h
      exact hacc

lemma scrapeLoop_step (env : ScrapeEnv) (fuel : Nat) (p : List RawRow)
    (rest : List (List RawRow)) (maxP : Option Int) (acc : List NormProc)
    (hg : loopGuard maxP acc.length = true)
    (hnz : ¬ (extractPageFull env p).length = 0)
    (hcb : ¬ capBreak maxP (acc ++ extractPageFull env p).length = true)
    (hne : ¬ rest.isEmpty = true) :
    scrapeLoop env (fuel + 1) (p :: rest) maxP acc
      = scrapeLoop env fuel rest maxP (acc ++ extractPageFull env p) := by
  rw [scrapeLoop_succ, if_pos hg]
  rw [List.headD_cons, List.tail_cons]
  rw [if_neg hnz, if_neg hcb, if_neg hne]

lemma scrapeLoop_capstop (env : ScrapeEnv) (fuel : Nat) (p : List RawRow)
    (rest : List (List RawRow)) (maxP : Option Int) (acc : List NormProc)
    (hg : loopGuard maxP acc.length = true)
    (hnz : ¬ (extractPageFull env p).length = 0)
    (hcb : capBreak maxP (acc ++ extractPageFull env p).length = true) :
    scrapeLoop env (fuel + 1) (p :: rest) maxP acc
      = some (acc ++ extractPageFull env p) := by
  rw [scrapeLoop_succ, if_pos hg]
  rw [List.headD_cons]
  rw [if_neg hnz, if_pos hcb]

/-! ## String lemmas for the date normalizer -/

lemma splitChar_of_not_mem {c : Char} {xs : List Char} (h : c ∉ xs) :
    splitChar c xs = [xs] := by
  induction xs with
  | nil => rfl
  | cons x t ih =>
    have hx : ¬ x = c := fun he => h (he ▸ List.mem_cons_self x t)
    have ht : c ∉ t := fun hm => h (List.mem_cons_of_mem x hm)
    rw [splitChar, if_neg hx, ih ht]

lemma splitChar_append {c : Char} {xs ys : List Char} (h : c ∉ xs) :
    splitChar c (xs ++ c :: ys) = xs :: splitChar c ys := by
  induction xs with
  | nil =>
    rw [List.nil_append, splitChar, if_pos rfl]
  | cons x t ih =>
    have hx : ¬ x = c := fun he => h (he ▸ List.mem_cons_self x t)
    have ht : c ∉ t := fun hm => h (List.mem_cons_of_mem x hm)
    rw [List.cons_append, splitChar, if_neg hx, ih ht]

lemma dropWhile_eq_self_of_head {p : Char → Bool} {l : List Char}
    (h : ∀ c, l.head? = some c → p c = false) : l.dropWhile p = l := by
  cases l with
  | nil => rfl
  | cons a t =>
    rw [List.dropWhile_cons, h a rfl]
    simp

lemma jsTrim_eq_self {l : List Char}
    (h1 : ∀ c, l.head? = some c → jsWs c = false)
    (h2 : ∀ c, l.getLast? = some c → jsWs c = false) : jsTrim l = l := by
  unfold jsTrim
  rw [dropWhile_eq_self_of_head h1]
  rw [dropWhile_eq_self_of_head (fun c hc => h2 c (by rwa [← List.head?_reverse]))]
  exact List.reverse_reverse l

lemma pad2_of_len2 {l : List Char} (h : l.length = 2) : pad2 l = l := by
  simp [pad2, h]

lemma digit_not_jsWs {c : Char} (h : c.isDigit = true) : jsWs c = false := by
  unfold jsWs
  simp only [decide_eq_false_iff_not]
  rintro (rfl | rfl | rfl | rfl) <;> exact absurd h (by decide)

lemma digit_ne_space {c : Char} (h : c.isDigit = true) : c ≠ ' ' := by
  intro he
  exact absurd (he ▸ h) (by decide)

lemma digit_ne_slash {c : Char} (h : c.isDigit = true) : c ≠ '/' := by
  intro he
  exact absurd (he ▸ h) (by decide)

lemma timeChar_not_jsWs {c : Char} (h : (c.isDigit || c == ':') = true) :
    jsWs c = false := by
  rcases (by simpa using h : c.isDigit = true ∨ (c == ':') = true) with hd | hc
  · exact digit_not_jsWs hd
  · have : c = ':' := by simpa using hc
    subst this
    decide

lemma timeChar_ne_space {c : Char} (h : (c.isDigit || c == ':') = true) : c ≠ ' ' := by
  intro he
  subst he
  exact absurd h (by decide)

lemma getLast?_ends_with {l1 l2 : List Char} (c : Char) (h : l2 ≠ []) :
    (l1 ++ c :: l2).getLast? = l2.getLast? := by
  rw [List.getLast?_append_cons]
  obtain ⟨a, t, rfl⟩ := List.exists_cons_of_ne_nil h
  exact List.getLast?_cons_cons

lemma mem_of_getLast?_eq {l : List Char} {c : Char} (h : l.getLast? = some c) :
    c ∈ l := by
  obtain ⟨hne, heq⟩ := List.mem_getLast?_eq_getLast (Option.mem_def.mpr h)
  rw [heq]
  exact List.getLast_mem hne

/-! ## Extraction membership lemma -/

lemma extractPage_mem_aux (env : ScrapeEnv) :
    ∀ (rows : List RawRow) (k : Nat) (p : ScrapedProc),
      p ∈ extractPage env k rows ↔
        ∃ i cells, rows[i]? = some cells ∧ ¬ cells.length < 7 ∧
          (isNumberJS (getCell cells 0) && isNotHeaderJS (getCell cells 1)
            && hasDescLength (getCell cells 6)) = true ∧
          p = mkProc env (k + i) cells := by
  intro rows
  induction rows with
  | nil =>
    intro k p
    simp [extractPage]
  | cons c rest ih =>
    intro k p
    constructor
    · intro hp
      rw [extractPage] at hp
      by_cases h7 : c.length < 7
      · rw [if_pos h7] at hp
        obtain ⟨i, cells, hget, hlen, hval, hmk⟩ := (ih (k + 1) p).mp hp
        refine ⟨i + 1, cells, ?_, hlen, hval, ?_⟩
        · simpa using hget
        · rw [show k + (i + 1) = k + 1 + i by omega]
          exact hmk
      · rw [if_neg h7] at hp
        by_cases hb : (isNumberJS (getCell c 0) && isNotHeaderJS (getCell c 1)
            && hasDescLength (getCell c 6)) = true
        · rw [if_pos hb] at hp
          rcases List.mem_cons.mp hp with hp1 | hp2
          · exact ⟨0, c, List.getElem?_cons_zero, h7, hb, by simpa using hp1⟩
          · obtain ⟨i, cells, hget, hlen, hval, hmk⟩ := (ih (k + 1) p).mp hp2
            refine ⟨i + 1, cells, by simpa using hget, hlen, hval, ?_⟩
            rw [show k + (i + 1) = k + 1 + i by omega]
            exact hmk
        · rw [if_neg hb] at hp
          obtain ⟨i, cells, hget, hlen, hval, hmk⟩ := (ih (k + 1) p).mp hp
          refine ⟨i + 1, cells, by simpa using hget, hlen, hval, ?_⟩
          rw [show k + (i + 1) = k + 1 + i by omega]
          exact hmk
    · rintro ⟨i, cells, hget, hlen, hval, hmk⟩
      rw [extractPage]
      cases i with
      | zero =>
        rw [List.getElem?_cons_zero] at hget
        cases hget
        rw [if_neg hlen, if_pos hval]
        exact List.mem_cons.mpr (Or.inl (by simpa using hmk))
      | succ j =>
        rw [List.getElem?_cons_succ] at hget
        have hmem : p ∈ extractPage env (k + 1) rest :=
          (ih (k + 1) p).mpr ⟨j, cells, hget, hlen, hval, by
            rw [show k + 1 + j = k + (j + 1) by omega]
            exact hmk⟩
        by_cases h7 : c.length < 7
        · rw [if_pos h7]
          exact hmem
        · rw [if_neg h7]
          by_cases hb : (isNumberJS (getCell c 0) && isNotHeaderJS (getCell c 1)
              && hasDescLength (getCell c 6)) = true
          · rw [if_pos hb]
            exact List.mem_cons.mpr (Or.inr hmem)
          · rw [if_neg hb]
            exact hmem

/-! ## Claim theorems -/

/-- Claim C1: applying the ingestion store's upsert twice in sequence to
the same record (the schema-mapped normalized record handed to
`findOrCreate`) yields exactly one stored record keyed by its
`id_proceso`, with `created = true` reported on the first application
and `created = false` on the second, and the finally stored fields equal
the record's fields. -/
theorem upsert_twice_idempotent (db : List (String × MappedProc)) (m : MappedProc)
    (h : lookupDb db m.id_proceso = none) :
    (upsert db m).2 = true
    ∧ (upsert (upsert db m).1 m).2 = false
    ∧ lookupDb (upsert (upsert db m).1 m).1 m.id_proceso = some m
    ∧ countKey (upsert (upsert db m).1 m).1 m.id_proceso = 1 := by
  have h1 : upsert db m = (db ++ [(m.id_proceso, m)], true) := by
    unfold upsert
    rw [h]
  have hl2 : lookupDb (db ++ [(m.id_proceso, m)]) m.id_proceso = some m :=
    lookupDb_append_right db _ m h
  have h2 : upsert (db ++ [(m.id_proceso, m)]) m
      = (updateDb (db ++ [(m.id_proceso, m)]) m.id_proceso m, false) := by
    unfold upsert
    rw [hl2]
  rw [h1]
  rw [h2]
  refine ⟨rfl, rfl, ?_, ?_⟩
  · exact lookupDb_updateDb_self _ _ m m hl2
  · rw [countKey_updateDb, countKey_append, countKey_zero_of_lookup_none db _ h]

/-- Witness for C1 at a concrete record and the empty store. -/
theorem upsert_twice_idempotent_witness :
    lookupDb ([] : List (String × MappedProc)) sampleMapped.id_proceso = none
    ∧ ((upsert [] sampleMapped).2 = true
      ∧ (upsert (upsert [] sampleMapped).1 sampleMapped).2 = false
      ∧ lookupDb (upsert (upsert [] sampleMapped).1 sampleMapped).1
          sampleMapped.id_proceso = some sampleMapped
      ∧ countKey (upsert (upsert [] sampleMapped).1 sampleMapped).1
          sampleMapped.id_proceso = 1) :=
  ⟨rfl, upsert_twice_idempotent [] sampleMapped rfl⟩

/-- Counterexample to claim C2 as stated: for the non-null cap
`maxProcesses = 0` the persistence loop still inserts a new record —
`params.maxProcesses || null` treats the falsy `0` as "no cap", so the
count of new inserts (here 1) exceeds N = 0. -/
theorem cap_zero_unbounded_cex :
    effInsertCap (some 0) = none
    ∧ (persistLoop (effInsertCap (some 0)) (fun _ => false) "t" [sampleNorm]
        ⟨[], 0, 0, 0, 0⟩).newIns = 1 :=
  ⟨rfl, by decide⟩

/-- Claim C2 (amended: the cap must be positive; `maxProcesses = 0` is
falsy in JS and disables the cap entirely): with cap `N ≥ 1` the number
of newly inserted records never exceeds N — it is invariantly bounded
over every starting state and row list — and once N new inserts have
occurred, a loop step never creates a record: the insert counters and
the set of stored keys are unchanged, existing records only being
updated. -/
theorem insert_cap_invariant (k : Int) (hk : 1 ≤ k) :
    (∀ (dbFails : NormProc → Bool) (now : String) (rows : List NormProc)
        (st : PersistState), (st.newIns : Int) ≤ k →
        ((persistLoop (effInsertCap (some k)) dbFails now rows st).newIns : Int) ≤ k)
    ∧ (∀ (dbFails : NormProc → Bool) (now : String) (st : PersistState)
        (row : NormProc), k ≤ (st.newIns : Int) →
        (persistStep (effInsertCap (some k)) dbFails now st row).newIns = st.newIns
        ∧ (persistStep (effInsertCap (some k)) dbFails now st row).saved = st.saved
        ∧ ((persistStep (effInsertCap (some k)) dbFails now st row).db).map Prod.fst
            = (st.db).map Prod.fst) := by
  have hek : effInsertCap (some k) = some k := by
    have : k ≠ 0 := by omega
    simp [effInsertCap, this]
  constructor
  · intro dbFails now rows st h
    rw [hek]
    exact persistLoop_newIns_le k dbFails now rows st h
  · intro dbFails now st row h
    rw [hek]
    exact persistStep_capReached k dbFails now st row h

/-- Witness for C2 (amended) at cap 1 and a two-row run. -/
theorem insert_cap_invariant_witness :
    (1 : Int) ≤ 1
    ∧ ((persistLoop (effInsertCap (some 1)) (fun _ => false) "t" [sampleNorm, sampleNorm]
        ⟨[], 0, 0, 0, 0⟩).newIns : Int) ≤ 1 :=
  ⟨le_refl 1,
    (insert_cap_invariant 1 (le_refl 1)).1 (fun _ => false) "t" [sampleNorm, sampleNorm]
      ⟨[], 0, 0, 0, 0⟩ (by decide)⟩

/-- Claim C4: over every finite page source the page-extraction loop
terminates — with fuel for one iteration per available page plus one it
always returns a result (the only exits being: the cap-filled guard, a
zero-row page, the cap-reached break, and `hasNextPage()` false); it
never runs out of iterations. -/
theorem extraction_loop_terminates (env : ScrapeEnv) (pages : List (List RawRow))
    (maxP : Option Int) :
    (scrapeLoop env (pages.length + 1) pages maxP []).isSome = true :=
  scrapeLoop_isSome env maxP pages []

/-- Counterexample to claim C7 as stated: a row whose ordinal cell is
`"0"` is kept by `extractTableData` — the code only requires
`parseInt` to succeed (`0` is accepted), not a positive integer. -/
theorem row_zero_ordinal_kept_cex :
    (extractPage cEnv 0 [rowZero]).length = 1 ∧ jsParseInt "0" = some 0 :=
  ⟨by decide, by decide⟩

/-- Claim C7 (amended: the ordinal check only requires `parseInt` to
succeed — zero or negative ordinals are accepted too): page extraction
keeps a table row exactly when it has at least 7 columns, its first
column is present and parses under `parseInt`, its entity-name column is
present and not a header label, and its description column has at least
10 characters; each kept row yields the process object built from it at
its position, and every other row is dropped (kept rows are the only
output — exclusion raises no error, extraction being total). -/
theorem row_validation_iff (env : ScrapeEnv) (rows : List RawRow) (p : ScrapedProc) :
    p ∈ extractPage env 0 rows ↔
      ∃ i cells, rows[i]? = some cells
        ∧ 7 ≤ cells.length
        ∧ isNumberJS (getCell cells 0) = true
        ∧ isNotHeaderJS (getCell cells 1) = true
        ∧ hasDescLength (getCell cells 6) = true
        ∧ p = mkProc env i cells := by
  rw [extractPage_mem_aux env rows 0 p]
  constructor
  · rintro ⟨i, cells, hget, hlen, hval, hmk⟩
    rw [Bool.and_eq_true, Bool.and_eq_true] at hval
    exact ⟨i, cells, hget, Nat.not_lt.mp hlen, hval.1.1, hval.1.2, hval.2,
      by simpa using hmk⟩
  · rintro ⟨i, cells, hget, hlen, h1, h2, h3, hmk⟩
    refine ⟨i, cells, hget, Nat.not_lt.mpr hlen, ?_, by simpa using hmk⟩
    rw [Bool.and_eq_true, Bool.and_eq_true]
    exact ⟨⟨h1, h2⟩, h3⟩

/-- Counterexample to claim C8 as stated: on a page without the submit
button, `clickBuscar` logs a warning and returns normally — it does not
propagate an error. -/
theorem clickBuscar_no_button_cex :
    noButtonEnv.btnFound = false ∧ clickBuscar noButtonEnv = StepResult.warned :=
  ⟨rfl, rfl⟩

/-- Claim C8 (amended: `clickBuscar` swallows all its failures — a
missing submit control included — into warning logs and never
propagates; the results-ready wait is the only fatal form-driving step,
failing exactly when the results table never appears). -/
theorem fatal_steps_characterization (env : UiEnv) :
    clickBuscar env ≠ StepResult.fatal
    ∧ selectProcedimientosSeleccion env ≠ StepResult.fatal
    ∧ selectObjetoContratacion env ≠ StepResult.fatal
    ∧ selectAnio env ≠ StepResult.fatal
    ∧ setFechaPublicacion env ≠ StepResult.fatal
    ∧ fillDescripcion env ≠ StepResult.fatal
    ∧ (waitForResults env = StepResult.fatal ↔ env.resultsAppear = false) := by
  refine ⟨?_, ?_, ?_, ?_, ?_, ?_, ?_⟩
  · unfold clickBuscar
    split_ifs <;> simp
  · unfold selectProcedimientosSeleccion
    split_ifs <;> simp
  · unfold selectObjetoContratacion
    split_ifs <;> simp
  · unfold selectAnio
    split_ifs <;> simp
  · unfold setFechaPublicacion
    split_ifs <;> simp
  · unfold fillDescripcion
    split_ifs <;> simp
  · cases hr : env.resultsAppear <;> simp [waitForResults, hr]

/-- Counterexample to claim C9 as stated: a job submitted with
`maxProcesses = null` is not unbounded — `params.maxProcesses || 100`
hands the scraper a cap of 100, so over a 120-row source the run
extracts and returns only 100 records. -/
theorem null_cap_defaults_cex :
    effScraperMax none = some 100
    ∧ (searchResults cEnv srcC3 (effScraperMax none)).length = 100 :=
  ⟨rfl, by decide⟩

/-- Claim C9 (amended: a job submitted with `maxProcesses = null` runs
the scraper with the default cap 100, so page extraction is limited to
100 records; only the persistence-loop insert cap is disabled
(`maxProcesses || null`).  The scraper itself, invoked directly with
`null`, is unbounded: over the 120-row source it returns all 120
records). -/
theorem null_cap_semantics :
    effScraperMax none = some 100
    ∧ effInsertCap none = none
    ∧ extractedTotal cEnv srcC3 none = 120
    ∧ (searchResults cEnv srcC3 none).length = 120 :=
  ⟨rfl, rfl, by decide, by decide⟩

/-- Claim C10: the persistence-schema mapping coerces falsy fields with
defaults; in particular a reference amount of exactly 0 is mapped to
null, so the mapped record is indistinguishable from one whose amount
was absent. -/
theorem mapSchema_zero_amount (now : String) (p : NormProc) (d : DecVal)
    (h : d.num = 0) :
    mapScrapeDataToProcesoSchema now { p with monto_referencial := some d }
      = mapScrapeDataToProcesoSchema now { p with monto_referencial := none }
    ∧ (mapScrapeDataToProcesoSchema now
        { p with monto_referencial := some d }).monto_referencial = none := by
  constructor
  · simp [mapScrapeDataToProcesoSchema, jsOrNullNum, h]
  · simp [mapScrapeDataToProcesoSchema, jsOrNullNum, h]

/-- Witness for C10 at a concrete record and the zero amount `0/1`. -/
theorem mapSchema_zero_amount_witness :
    (mapScrapeDataToProcesoSchema "t"
      { sampleNorm with monto_referencial := some ⟨0, 1⟩ }).monto_referencial = none :=
  (mapSchema_zero_amount "t" sampleNorm ⟨0, 1⟩ rfl).2

/-- Counterexample to claim C6 as stated: the amount text `"-500,00"`
normalizes to the negative value −500 — the code never enforces the
claimed non-negativity of the resulting amount. -/
theorem amount_negative_cex :
    normMonto (some "-500,00") = some ⟨-50000, 100⟩
    ∧ DecVal.toRat ⟨-50000, 100⟩ < 0 := by
  refine ⟨by decide, ?_⟩
  simp [DecVal.toRat]
  norm_num

/-- Claim C6 (amended: the result is a decimal or null, not necessarily
non-negative — a signed input parses with its sign): normalization
strips the `.` thousands separators and converts the decimal comma, so
`"1.234.567,89"` parses to 1234567.89; the sentinels `"---"`, `"N/A"`
and empty input give null; unparsable text such as `"abc"` gives null
(and the function is total — it never throws). -/
theorem amount_normalization_cases :
    (normMonto (some "1.234.567,89")).map DecVal.toRat = some (1234567.89 : ℚ)
    ∧ normMonto (some "---") = none
    ∧ normMonto (some "N/A") = none
    ∧ normMonto (some "") = none
    ∧ normMonto none = none
    ∧ normMonto (some "abc") = none := by
  refine ⟨?_, by decide, by decide, by decide, rfl, by decide⟩
  have h : normMonto (some "1.234.567,89") = some ⟨123456789, 100⟩ := by decide
  rw [h]
  simp [DecVal.toRat]
  norm_num


/-- Counterexample to claim C5 as stated: the unparsable date text
`"abc"` is left unchanged by normalization — it is not mapped to null
(the reassembly runs only when day, month and year are all truthy, and
no other branch nullifies a non-empty value). -/
theorem date_unparsable_not_null_cex :
    normFecha (some "abc") = some "abc" := by decide

/-- Claim C5 (amended: only empty or whitespace-only input maps to
null — any other unparsable input is left unchanged, as the
counterexample shows): every input of the form `dd/mm/yyyy HH:MM[:SS]`
(digit components of widths 2/2/4, time made of digits and colons)
normalizes to `yyyy-mm-dd HH:MM[:SS]`, a bare `dd/mm/yyyy` normalizes
with the `00:00:00` default time, empty input maps to null, and the
function is total (never throws). -/
theorem date_normalization_shape (d m y hm : List Char)
    (hd : d.all Char.isDigit = true) (hmd : m.all Char.isDigit = true)
    (hy : y.all Char.isDigit = true)
    (hhm : hm.all (fun c => c.isDigit || c == ':') = true)
    (hdl : d.length = 2) (hml : m.length = 2) (hyl : y.length = 4)
    (hhmne : hm ≠ []) :
    normFechaList (d ++ '/' :: m ++ '/' :: y ++ ' ' :: hm)
      = some (y ++ '-' :: m ++ '-' :: d ++ ' ' :: hm)
    ∧ normFechaList (d ++ '/' :: m ++ '/' :: y)
      = some (y ++ '-' :: m ++ '-' :: d ++ ' ' :: ("00:00:00".data))
    ∧ normFechaList [] = none := by
  have hd' : ∀ c ∈ d, c.isDigit = true := by simpa using hd
  have hm' : ∀ c ∈ m, c.isDigit = true := by simpa using hmd
  have hy' : ∀ c ∈ y, c.isDigit = true := by simpa using hy
  have hhm' : ∀ c ∈ hm, (c.isDigit || c == ':') = true := by simpa using hhm
  have hsd : ' ' ∉ d := fun hc => digit_ne_space (hd' _ hc) rfl
  have hsm : ' ' ∉ m := fun hc => digit_ne_space (hm' _ hc) rfl
  have hsy : ' ' ∉ y := fun hc => digit_ne_space (hy' _ hc) rfl
  have hshm : ' ' ∉ hm := fun hc => timeChar_ne_space (hhm' _ hc) rfl
  have hfd : '/' ∉ d := fun hc => digit_ne_slash (hd' _ hc) rfl
  have hfm : '/' ∉ m := fun hc => digit_ne_slash (hm' _ hc) rfl
  have hfy : '/' ∉ y := fun hc => digit_ne_slash (hy' _ hc) rfl
  have hdne : d ≠ [] := by intro h; rw [h] at hdl; simp at hdl
  have hmne : m ≠ [] := by intro h; rw [h] at hml; simp at hml
  have hyne : y ≠ [] := by intro h; rw [h] at hyl; simp at hyl
  have hsX : ' ' ∉ (d ++ '/' :: m) ++ '/' :: y := by
    intro hc
    rcases List.mem_append.mp hc with h1 | h2
    · rcases List.mem_append.mp h1 with h3 | h4
      · exact hsd h3
      · rcases List.mem_cons.mp h4 with h5 | h6
        · exact absurd h5 (by decide)
        · exact hsm h6
    · rcases List.mem_cons.mp h2 with h5 | h6
      · exact absurd h5 (by decide)
      · exact hsy h6
  have hfp : splitChar '/' ((d ++ '/' :: m) ++ '/' :: y) = [d, m, y] := by
    rw [List.append_assoc, List.cons_append, splitChar_append hfd,
      splitChar_append hfm, splitChar_of_not_mem hfy]
  obtain ⟨d1, dt, rfl⟩ := List.exists_cons_of_ne_nil hdne
  obtain ⟨y1, yt, rfl⟩ := List.exists_cons_of_ne_nil hyne
  obtain ⟨q1, qt, rfl⟩ := List.exists_cons_of_ne_nil hhmne
  refine ⟨?_, ?_, rfl⟩
  · have htrimL :
        jsTrim (((d1 :: dt) ++ '/' :: m) ++ '/' :: (y1 :: yt) ++ ' ' :: (q1 :: qt))
          = ((d1 :: dt) ++ '/' :: m) ++ '/' :: (y1 :: yt) ++ ' ' :: (q1 :: qt) := by
      apply jsTrim_eq_self
      · intro c hc
        simp only [List.cons_append, List.append_assoc, List.head?_cons,
          Option.some.injEq] at hc
        subst hc
        exact digit_not_jsWs (hd' d1 (List.mem_cons_self d1 dt))
      · intro c hc
        rw [getLast?_ends_with ' ' (List.cons_ne_nil q1 qt)] at hc
        exact timeChar_not_jsWs (hhm' c (mem_of_getLast?_eq hc))
    have hsplitL :
        splitChar ' ' (((d1 :: dt) ++ '/' :: m) ++ '/' :: (y1 :: yt) ++ ' ' :: (q1 :: qt))
          = [((d1 :: dt) ++ '/' :: m) ++ '/' :: (y1 :: yt), q1 :: qt] := by
      rw [splitChar_append hsX, splitChar_of_not_mem hshm]
    have hkey :
        normFechaCore (((d1 :: dt) ++ '/' :: m) ++ '/' :: (y1 :: yt) ++ ' ' :: (q1 :: qt))
          = (y1 :: yt) ++ '-' :: m ++ '-' :: (d1 :: dt) ++ ' ' :: (q1 :: qt) := by
      simp only [normFechaCore]
      rw [htrimL, hsplitL]
      simp only [List.headD_cons, List.getD_cons_succ, List.getD_cons_zero]
      rw [if_neg (List.cons_ne_nil q1 qt), hfp]
      simp only [List.getD_cons_succ, List.getD_cons_zero]
      rw [if_pos ⟨List.cons_ne_nil d1 dt, hmne, List.cons_ne_nil y1 yt⟩]
      rw [pad2_of_len2 hml, pad2_of_len2 hdl]
    have htrimR :
        jsTrim ((y1 :: yt) ++ '-' :: m ++ '-' :: (d1 :: dt) ++ ' ' :: (q1 :: qt))
          = (y1 :: yt) ++ '-' :: m ++ '-' :: (d1 :: dt) ++ ' ' :: (q1 :: qt) := by
      apply jsTrim_eq_self
      · intro c hc
        simp only [List.cons_append, List.append_assoc, List.head?_cons,
          Option.some.injEq] at hc
        subst hc
        exact digit_not_jsWs (hy' y1 (List.mem_cons_self y1 yt))
      · intro c hc
        rw [getLast?_ends_with ' ' (List.cons_ne_nil q1 qt)] at hc
        exact timeChar_not_jsWs (hhm' c (mem_of_getLast?_eq hc))
    unfold normFechaList
    rw [if_neg (by simp), hkey]
    simp only [htrimR]
    rw [if_neg (by simp)]
  · have htrimL2 :
        jsTrim (((d1 :: dt) ++ '/' :: m) ++ '/' :: (y1 :: yt))
          = ((d1 :: dt) ++ '/' :: m) ++ '/' :: (y1 :: yt) := by
      apply jsTrim_eq_self
      · intro c hc
        simp only [List.cons_append, List.append_assoc, List.head?_cons,
          Option.some.injEq] at hc
        subst hc
        exact digit_not_jsWs (hd' d1 (List.mem_cons_self d1 dt))
      · intro c hc
        rw [getLast?_ends_with '/' (List.cons_ne_nil y1 yt)] at hc
        exact digit_not_jsWs (hy' c (mem_of_getLast?_eq hc))
    have hkey2 :
        normFechaCore (((d1 :: dt) ++ '/' :: m) ++ '/' :: (y1 :: yt))
          = (y1 :: yt) ++ '-' :: m ++ '-' :: (d1 :: dt) ++ ' ' :: ("00:00:00".data) := by
      simp only [normFechaCore]
      rw [htrimL2, splitChar_of_not_mem hsX]
      simp only [List.headD_cons, List.getD_cons_succ, List.getD_nil]
      rw [hfp]
      simp only [List.getD_cons_succ, List.getD_cons_zero]
      rw [if_pos ⟨List.cons_ne_nil d1 dt, hmne, List.cons_ne_nil y1 yt⟩]
      rw [pad2_of_len2 hml, pad2_of_len2 hdl]
      simp
    have htrimR2 :
        jsTrim ((y1 :: yt) ++ '-' :: m ++ '-' :: (d1 :: dt) ++ ' ' :: ("00:00:00".data))
          = (y1 :: yt) ++ '-' :: m ++ '-' :: (d1 :: dt) ++ ' ' :: ("00:00:00".data) := by
      apply jsTrim_eq_self
      · intro c hc
        simp only [List.cons_append, List.append_assoc, List.head?_cons,
          Option.some.injEq] at hc
        subst hc
        exact digit_not_jsWs (hy' y1 (List.mem_cons_self y1 yt))
      · intro c hc
        rw [getLast?_ends_with ' ' (by decide)] at hc
        have h0 : ("00:00:00".data).getLast? = some '0' := by decide
        rw [h0] at hc
        simp only [Option.some.injEq] at hc
        subst hc
        decide
    unfold normFechaList
    rw [if_neg (by simp), hkey2]
    simp only [htrimR2]
    rw [if_neg (by simp)]


/-- Witness for C5 (amended) at the spec's example
`"09/10/2025 14:30"` → `"2025-10-09 14:30"`. -/
theorem date_normalization_shape_witness :
    ("09".data.all Char.isDigit = true)
    ∧ normFechaList ("09".data ++ '/' :: "10".data ++ '/' :: "2025".data ++ ' ' :: "14:30".data)
        = some ("2025".data ++ '-' :: "10".data ++ '-' :: "09".data ++ ' ' :: "14:30".data) :=
  ⟨by decide, (date_normalization_shape "09".data "10".data "2025".data "14:30".data
      (by decide) (by decide) (by decide) (by decide) (by decide) (by decide) (by decide)
      (by decide)).1⟩


/-- Counterexample to claim C3 as stated: in the bounded scenario
(`maxProcesses = 50`, three pages of 40 matching rows) extraction does
not read all 120 rows — the loop breaks once the accumulated count
reaches the cap, after the second page, having extracted 80 rows, and
the scraper returns only the first 50. -/
theorem scenario_extraction_count_cex :
    extractedTotal cEnv srcC3 (effScraperMax (some 50)) ≠ 120
    ∧ extractedTotal cEnv srcC3 (effScraperMax (some 50)) = 80
    ∧ (searchResults cEnv srcC3 (effScraperMax (some 50))).length = 50 :=
  ⟨by decide, by decide, by decide⟩


lemma searchAccum_id_ne (env : ScrapeEnv) (pages : List (List RawRow))
    (maxP : Option Int) : ∀ x ∈ searchAccum env pages maxP, x.id_proceso ≠ "" := by
  intro x hx
  unfold searchAccum at hx
  cases hsl : scrapeLoop env (pages.length + 1) pages maxP [] with
  | none => rw [hsl] at hx; simp at hx
  | some res =>
    rw [hsl] at hx
    exact scrapeLoop_id_ne env maxP _ pages [] res hsl (by simp) x hx

lemma searchResults_id_ne (env : ScrapeEnv) (pages : List (List RawRow))
    (maxP : Option Int) : ∀ x ∈ searchResults env pages maxP, x.id_proceso ≠ "" := by
  intro x hx
  apply searchAccum_id_ne env pages maxP
  cases maxP with
  | none => simpa [searchResults] using hx
  | some k =>
    simp only [searchResults] at hx
    by_cases hk : k = 0
    · rw [if_pos hk] at hx; exact hx
    · rw [if_neg hk] at hx
      exact List.take_subset _ _ hx

/-- Claim C3 (amended: extraction reads 80 of the 120 rows — it stops
mid-run once the accumulated count reaches the cap, after page 2 — and
the scraper hands the persistence phase only the first 50): in a run
with `maxProcesses = 50` over 3 pages of 40 matching rows each, the
returned record list has length 50; for every prior table state and
any set of per-row persistence failures the job completes with status
`completed`, reports `inserted ≤ 50`, reports `errored` equal to the
number of persistence failures among the processed records, and reports
`updated` reflecting the re-seen existing records among the 50
processed: each processed record is counted exactly once, so
`inserted + updated + errored = 50` and `updated` is exactly the count
of successfully refreshed already-existing records. -/
theorem scenario_bounded_run (p1 p2 p3 : List RawRow) (env : ScrapeEnv)
    (h1 : (extractPageFull env p1).length = 40)
    (h2 : (extractPageFull env p2).length = 40)
    (_h3 : (extractPageFull env p3).length = 40) :
    extractedTotal env [p1, p2, p3] (effScraperMax (some 50)) = 80
    ∧ (searchResults env [p1, p2, p3] (effScraperMax (some 50))).length = 50
    ∧ ∀ (dbFails : NormProc → Bool) (db0 : List (String × MappedProc)),
        (performScraping env false dbFails (some 50) [p1, p2, p3] db0).status = "completed"
        ∧ (performScraping env false dbFails (some 50) [p1, p2, p3] db0).inserted ≤ 50
        ∧ (performScraping env false dbFails (some 50) [p1, p2, p3] db0).errored
            = (searchResults env [p1, p2, p3] (effScraperMax (some 50))).countP dbFails
        ∧ (performScraping env false dbFails (some 50) [p1, p2, p3] db0).inserted
            + (performScraping env false dbFails (some 50) [p1, p2, p3] db0).updated
            + (performScraping env false dbFails (some 50) [p1, p2, p3] db0).errored
            = 50 := by
  have hemax : effScraperMax (some 50) = some 50 := rfl
  have hacc : searchAccum env [p1, p2, p3] (some 50)
      = extractPageFull env p1 ++ extractPageFull env p2 := by
    unfold searchAccum
    have hstep : scrapeLoop env 4 [p1, p2, p3] (some 50) []
        = scrapeLoop env 3 [p2, p3] (some 50) ([] ++ extractPageFull env p1) := by
      apply scrapeLoop_step
      · decide
      · rw [h1]; decide
      · rw [List.nil_append]
        simp [capBreak, h1]
      · simp
    have hstop : scrapeLoop env 3 [p2, p3] (some 50) ([] ++ extractPageFull env p1)
        = some (([] ++ extractPageFull env p1) ++ extractPageFull env p2) := by
      apply scrapeLoop_capstop env 2
      · simp [loopGuard, h1]
      · rw [h2]; decide
      · simp [capBreak, h1, h2]
    rw [show ([p1, p2, p3] : List (List RawRow)).length + 1 = 4 from rfl, hstep, hstop]
    simp
  have hlen : (searchAccum env [p1, p2, p3] (some 50)).length = 80 := by
    rw [hacc]
    simp [h1, h2]
  have hres50 : (searchResults env [p1, p2, p3] (effScraperMax (some 50))).length = 50 := by
    unfold searchResults
    rw [hemax]
    simp [hlen]
  refine ⟨?_, hres50, ?_⟩
  · unfold extractedTotal
    rw [hemax]
    exact hlen
  · intro dbFails db0
    have hecap : effInsertCap (some 50) = some 50 := rfl
    have hres : (performScraping env false dbFails (some 50) [p1, p2, p3] db0)
        = ⟨"completed",
            (persistLoop (effInsertCap (some 50)) dbFails env.nowIso
              (searchResults env [p1, p2, p3] (effScraperMax (some 50)))
              ⟨db0, 0, 0, 0, 0⟩).saved,
            (persistLoop (effInsertCap (some 50)) dbFails env.nowIso
              (searchResults env [p1, p2, p3] (effScraperMax (some 50)))
              ⟨db0, 0, 0, 0, 0⟩).updated,
            (persistLoop (effInsertCap (some 50)) dbFails env.nowIso
              (searchResults env [p1, p2, p3] (effScraperMax (some 50)))
              ⟨db0, 0, 0, 0, 0⟩).errored⟩ := rfl
    rw [hres]
    refine ⟨rfl, ?_, ?_, ?_⟩
    · dsimp only
      have hq := persistLoop_saved_newIns (effInsertCap (some 50)) dbFails env.nowIso
        (searchResults env [p1, p2, p3] (effScraperMax (some 50))) ⟨db0, 0, 0, 0, 0⟩
      have hb : ((persistLoop (effInsertCap (some 50)) dbFails env.nowIso
          (searchResults env [p1, p2, p3] (effScraperMax (some 50)))
          ⟨db0, 0, 0, 0, 0⟩).newIns : Int) ≤ 50 := by
        rw [hecap]
        exact persistLoop_newIns_le 50 dbFails env.nowIso _ _ (by simp)
      dsimp only at hq
      have hb2 : (persistLoop (effInsertCap (some 50)) dbFails env.nowIso
          (searchResults env [p1, p2, p3] (effScraperMax (some 50)))
          ⟨db0, 0, 0, 0, 0⟩).newIns ≤ 50 := by exact_mod_cast hb
      omega
    · dsimp only
      have herr := persistLoop_errored (effInsertCap (some 50)) dbFails env.nowIso
        (searchResults env [p1, p2, p3] (effScraperMax (some 50))) ⟨db0, 0, 0, 0, 0⟩
        (searchResults_id_ne env [p1, p2, p3] (effScraperMax (some 50)))
      simpa using herr
    · dsimp only
      rw [hecap]
      have hsum := persistLoop_counts 50 dbFails env.nowIso
        (searchResults env [p1, p2, p3] (effScraperMax (some 50))) ⟨db0, 0, 0, 0, 0⟩
        (searchResults_id_ne env [p1, p2, p3] (effScraperMax (some 50)))
        (by simp [hres50])
      rw [hres50] at hsum
      dsimp only at hsum
      omega


set_option maxRecDepth 8192 in
/-- Witness for C3 (amended) at the concrete 120-row source. -/
theorem scenario_bounded_run_witness :
    (extractPageFull cEnv samplePage).length = 40
    ∧ extractedTotal cEnv srcC3 (effScraperMax (some 50)) = 80
    ∧ (searchResults cEnv srcC3 (effScraperMax (some 50))).length = 50
    ∧ (performScraping cEnv false (fun _ => false) (some 50) srcC3 []).status
        = "completed"
    ∧ (performScraping cEnv false (fun _ => false) (some 50) srcC3 []).inserted
        + (performScraping cEnv false (fun _ => false) (some 50) srcC3 []).updated
        + (performScraping cEnv false (fun _ => false) (some 50) srcC3 []).errored
        = 50 :=
  ⟨by decide,
    (scenario_bounded_run samplePage samplePage samplePage cEnv
      (by decide) (by decide) (by decide)).1,
    (scenario_bounded_run samplePage samplePage samplePage cEnv
      (by decide) (by decide) (by decide)).2.1,
    ((scenario_bounded_run samplePage samplePage samplePage cEnv
      (by decide) (by decide) (by decide)).2.2 (fun _ => false) []).1,
    ((scenario_bounded_run samplePage samplePage samplePage cEnv
      (by decide) (by decide) (by decide)).2.2 (fun _ => false) []).2.2.2⟩

end Seace
